import Mathlib

/-!
# Verification of the Fedecat shooting-competition prototypes

Shallow embedding of the two Python source files of the repository:

* `FedecatShooting.py` — the per-round prototype (SQLite store with
  `shooters`, `competitions`, `squads`, `entries`, `round_results`), namespace
  `Fedecat` below;
* `fede_shooting_kivy_prototype.py` — the aggregate-total prototype (SQLite
  store with `shooters` and `results`), namespace `Kivy` below.

The store of each variant is modelled as in-memory lists with explicit
auto-increment counters, one per table, mirroring the SQLite schemas of
`init_db`.  Spreadsheet input is modelled as the list of data rows of the
relevant sheet (the file/sheet plumbing around the row loops is I/O and is
not part of the embedding).  Python cell values are modelled by `Cell`
(an empty cell, an integer, or a string), and Python truthiness, `or`
defaults, `str`/`int` coercions are modelled explicitly.

Fallible operations return `Except String`.  A run of an import corresponds
to one SQLite connection whose single `conn.commit()` sits after the row
loop; an exception escaping the loop skips that commit and the connection's
pending transaction is discarded when the connection is dropped, so the
observable (committed) store after a failed call is the store the call
started from.  The `afterShooters`/`afterResults` functions expose exactly
this committed view.
-/

/-- A spreadsheet cell as handed to the import loops by openpyxl: an empty
cell (Python `None`), an integer, or a string. -/
inductive Cell where
  | empty
  | num (n : Int)
  | txt (s : String)
deriving DecidableEq, Repr

/-- Python truthiness of a cell value: `None`, `0` and `""` are falsy. -/
def Cell.truthy : Cell → Bool
  | Cell.empty => false
  | Cell.num n => decide (n ≠ 0)
  | Cell.txt s => decide (s ≠ "")

/-- Python `s.strip()`: the string without leading and trailing
whitespace (modelled over the character list so that it evaluates inside
the kernel). -/
def pyStrip (s : String) : String :=
  String.mk
    (((s.data.dropWhile Char.isWhitespace).reverse.dropWhile
        Char.isWhitespace).reverse)

/-- The numeric value of a non-empty all-digit character list. -/
def digitsToNat (cs : List Char) : Option Nat :=
  if cs = [] then Option.none
  else if cs.all Char.isDigit then
    some (cs.foldl (fun n c => 10 * n + (c.toNat - 48)) 0)
  else Option.none

/-- Python `int(s)` on a string: surrounding whitespace is ignored, an
optional sign is allowed, and anything else raises `ValueError`
(`Option.none`).  Digit-group underscores are not modelled. -/
def pyInt (s : String) : Option Int :=
  match (pyStrip s).data with
  | '-' :: cs => (digitsToNat cs).map (fun n => -(n : Int))
  | '+' :: cs => (digitsToNat cs).map (fun n => (n : Int))
  | cs => (digitsToNat cs).map (fun n => (n : Int))

/-- Python `x or d` for a cell `x` and an integer default `d`. -/
def pyOrCell (c : Cell) (d : Int) : Cell :=
  if c.truthy then c else Cell.num d

/-- Python `int(x)` on a cell value: an integer is returned unchanged, a
string is parsed (`ValueError`, i.e. `Option.none`, when unparsable), and
`None` cannot be coerced. -/
def cellToInt : Cell → Option Int
  | Cell.empty => Option.none
  | Cell.num n => some n
  | Cell.txt s => pyInt s

/-- `int(x or d)` — the parsing idiom of `import_results_from_excel`:
Python `or` substitutes the default for falsy cells, then `int` coerces. -/
def parseIntDefault (c : Cell) (d : Int) : Option Int :=
  cellToInt (pyOrCell c d)

/-- Python `str(x) if x is not None else None` applied to a cell. -/
def pyStr : Cell → Option String
  | Cell.empty => Option.none
  | Cell.num n => some (toString n)
  | Cell.txt s => some s

/-- Python `x or d` for an optional string `x` (`None` and `""` are falsy)
and a string default `d`. -/
def pyOrStr (o : Option String) (d : String) : String :=
  match o with
  | Option.none => d
  | some s => if s = "" then d else s

/-- Python `f"...{x}..."` interpolation of an optional string: `None`
renders as the literal text `None`. -/
def pyShow (o : Option String) : String :=
  match o with
  | Option.none => "None"
  | some s => s

namespace Fedecat

/-- A row of the `shooters` table of `FedecatShooting.py` (`init_db`):
`nombre` is declared `NOT NULL`, `dni` is declared `UNIQUE`. -/
structure Shooter where
  id : Nat
  nombre : Option String
  club : Option String
  categoria : Option String
  licencia : Option String
  pais : Option String
  dni : Option String
deriving DecidableEq, Repr

/-- A row of the `competitions` table: `nombre` is `NOT NULL UNIQUE`. -/
structure Competition where
  id : Nat
  nombre : String
deriving DecidableEq, Repr

/-- A row of the `squads` table. -/
structure Squad where
  id : Nat
  competition_id : Nat
  nombre : String
deriving DecidableEq, Repr

/-- A row of the `entries` table.  Note that the schema declares only a
plain (non-unique) index `ix_entries_comp_dorsal` on
`(competition_id, dorsal)`. -/
structure Entry where
  id : Nat
  competition_id : Nat
  shooter_id : Nat
  squad_id : Option Nat
  dorsal : Option String
deriving DecidableEq, Repr

/-- A row of the `round_results` table. -/
structure RoundResult where
  id : Nat
  entry_id : Nat
  round_number : Int
  hits : Int
  misses : Int
  score : Int
  detail : String
  timestamp : String
deriving DecidableEq, Repr

/-- The committed database state of `FedecatShooting.py`: one list per
table in rowid order, plus the next auto-increment id of each table. -/
structure Store where
  shooters : List Shooter
  competitions : List Competition
  squads : List Squad
  entries : List Entry
  roundResults : List RoundResult
  nextShooterId : Nat
  nextCompId : Nat
  nextSquadId : Nat
  nextEntryId : Nat
  nextRRId : Nat
deriving DecidableEq, Repr

/-- The state `init_db` produces: empty tables. -/
def emptyStore : Store :=
  { shooters := [], competitions := [], squads := [], entries := [],
    roundResults := [], nextShooterId := 1, nextCompId := 1,
    nextSquadId := 1, nextEntryId := 1, nextRRId := 1 }

/-- A data row of the `Tiradores` sheet, as the dict
`data = dict(zip(headers, row))` built by `import_shooters_from_excel`
(an absent or empty cell is `Option.none`; the `dni` cell is kept raw
because the importer post-processes it). -/
structure ShooterRow where
  nombre : Option String
  club : Option String
  categoria : Option String
  licencia : Option String
  pais : Option String
  dni : Option String
deriving DecidableEq, Repr

/-- The `dni` normalisation of `import_shooters_from_excel` lines 158–159:
`dni = (data.get("dni") or "").strip() if data.get("dni") else None`
followed by `if dni == "None": dni = None`.  A falsy cell gives `None`;
a truthy cell is stripped (so a whitespace-only cell yields the empty
string, which is *not* `None`). -/
def parseDniCell (c : Option String) : Option String :=
  match c with
  | Option.none => Option.none
  | some s =>
    if s = "" then Option.none
    else if pyStrip s = "None" then Option.none
    else some (pyStrip s)

/-- The lookup of lines 160–164: `SELECT id FROM shooters WHERE dni = ?`
is executed only when the normalised `dni` is truthy; otherwise `r = None`.
The first matching row (rowid order) is fetched. -/
def shooterLookupDni (st : Store) (dni : Option String) : Option Shooter :=
  match dni with
  | Option.none => Option.none
  | some d =>
    if d = "" then Option.none
    else st.shooters.find? (fun s => s.dni == some d)

/-- The effect of the `UPDATE` of line 166 on one stored row: the row with
the matching id takes the spreadsheet row's mutable fields, every other
row is unchanged. -/
def applyUpd (i : Nat) (r : ShooterRow) (s : Shooter) : Shooter :=
  if s.id = i then
    { s with nombre := r.nombre, club := r.club, categoria := r.categoria,
             licencia := r.licencia, pais := r.pais }
  else s

/-- The `UPDATE shooters SET nombre=?, club=?, categoria=?, licencia=?,
pais=? WHERE id=?` of line 166, applied to the row with the given id. -/
def updateShooter (st : Store) (i : Nat) (r : ShooterRow) : Store :=
  { st with shooters := st.shooters.map (applyUpd i r) }

/-- The `INSERT OR IGNORE INTO shooters ...` of line 169.  `OR IGNORE`
silently drops the row on any constraint violation: a `NULL` `nombre`
(the column is `NOT NULL`) or a non-`NULL` `dni` equal to an existing
row's `dni` (the column is `UNIQUE`; SQLite treats `NULL`s as distinct). -/
def insertShooterOrIgnore (st : Store) (r : ShooterRow) (dni : Option String) :
    Store :=
  if r.nombre = Option.none then st
  else
    match dni with
    | some d =>
      if st.shooters.any (fun s => s.dni == some d) then st
      else
        { st with
          shooters := st.shooters ++
            [{ id := st.nextShooterId, nombre := r.nombre, club := r.club,
               categoria := r.categoria, licencia := r.licencia,
               pais := r.pais, dni := some d }],
          nextShooterId := st.nextShooterId + 1 }
    | Option.none =>
      { st with
        shooters := st.shooters ++
          [{ id := st.nextShooterId, nombre := r.nombre, club := r.club,
             categoria := r.categoria, licencia := r.licencia,
             pais := r.pais, dni := Option.none }],
        nextShooterId := st.nextShooterId + 1 }

/-- One iteration of the row loop of `import_shooters_from_excel`
(lines 156–171).  When a shooter with the normalised key exists it is
updated in place (an `UPDATE` setting `nombre` to `NULL` raises
`IntegrityError`, which aborts the run); otherwise an `INSERT OR IGNORE`
is attempted and `created` is incremented — even when the insert was
ignored. -/
def importShooterRow (acc : Store × Nat) (r : ShooterRow) :
    Except String (Store × Nat) :=
  let dni := parseDniCell r.dni
  match shooterLookupDni acc.1 dni with
  | some s =>
    if r.nombre = Option.none then
      Except.error "NOT NULL constraint failed: shooters.nombre"
    else
      Except.ok (updateShooter acc.1 s.id r, acc.2)
  | Option.none =>
    Except.ok (insertShooterOrIgnore acc.1 r dni, acc.2 + 1)

/-- `import_shooters_from_excel` restricted to its row loop over the data
rows of the `Tiradores` sheet; returns the pending store and the `created`
counter. -/
def import_shooters_from_excel (st : Store) (rows : List ShooterRow) :
    Except String (Store × Nat) :=
  rows.foldlM importShooterRow (st, 0)

/-- The committed store after a call to `import_shooters_from_excel`:
`conn.commit()` runs only after the whole loop, so a run that raises
commits nothing and the store is unchanged. -/
def afterShooters (st : Store) (rows : List ShooterRow) : Store :=
  match import_shooters_from_excel st rows with
  | Except.ok (st1, _) => st1
  | Except.error _ => st

/-- Number of stored shooters whose `dni` equals the given key. -/
def countDni (st : Store) (d : String) : Nat :=
  (st.shooters.filter (fun s => s.dni == some d)).length

/-- The `UNIQUE` constraint on `shooters.dni`, as a boolean invariant of
the store: no two rows share a non-`NULL` `dni`. -/
def uniqueDniB : List Shooter → Bool
  | [] => true
  | s :: rest =>
    (match s.dni with
     | some d => !(rest.any (fun t => t.dni == some d))
     | Option.none => true) && uniqueDniB rest

/-- A data row of the `Inscripciones` sheet; the importer reads the
`shooter_dni`, `squad` and `dorsal` columns (`competition` and `nota`
are unused by the code). -/
structure InscRow where
  squad : Option String
  dorsal : Cell
  shooter_dni : Option String
deriving DecidableEq, Repr

/-- The `shooter_dni` normalisation of `import_inscriptions_from_excel`
line 201: `(data.get("shooter_dni") or "").strip() if data.get("shooter_dni")
else None` — unlike the shooters import there is no `"None"` remapping. -/
def parseShooterDni (c : Option String) : Option String :=
  match c with
  | Option.none => Option.none
  | some s => if s = "" then Option.none else some (pyStrip s)

/-- Lines 183–189 of `import_inscriptions_from_excel`: look the competition
up by name and create it when absent (`cur.lastrowid` becomes its id).
Returns the store together with the competition id used. -/
def ensureCompetition (st : Store) (name : String) : Store × Nat :=
  match st.competitions.find? (fun c => c.nombre == name) with
  | some c => (st, c.id)
  | Option.none =>
    ({ st with
       competitions := st.competitions ++ [{ id := st.nextCompId, nombre := name }],
       nextCompId := st.nextCompId + 1 },
     st.nextCompId)

/-- Lines 211–217: look the squad up by `(competition_id, nombre)` and
create it when absent; returns the store and the squad id. -/
def findOrCreateSquad (st : Store) (cid : Nat) (name : String) : Store × Nat :=
  match st.squads.find? (fun s => s.competition_id == cid && s.nombre == name) with
  | some s => (st, s.id)
  | Option.none =>
    ({ st with
       squads := st.squads ++
         [{ id := st.nextSquadId, competition_id := cid, nombre := name }],
       nextSquadId := st.nextSquadId + 1 },
     st.nextSquadId)

/-- One iteration of the row loop of `import_inscriptions_from_excel`
(lines 199–221): a falsy `shooter_dni` is skipped silently; an unknown
`shooter_dni` is skipped with a printed warning; otherwise the squad is
resolved or created and a new entry is inserted unconditionally — the
`entries` table has no uniqueness constraint on `(competition_id, dorsal)`,
so a duplicate dorsal simply becomes a second row. -/
def inscStep (cid : Nat) (acc : Store × Nat) (r : InscRow) : Store × Nat :=
  match parseShooterDni r.shooter_dni with
  | Option.none => acc
  | some d =>
    if d = "" then acc
    else
      match acc.1.shooters.find? (fun s => s.dni == some d) with
      | Option.none => acc
      | some sh =>
        let p := findOrCreateSquad acc.1 cid (pyOrStr r.squad "Sin escuadra")
        ({ p.1 with
           entries := p.1.entries ++
             [{ id := p.1.nextEntryId, competition_id := cid,
                shooter_id := sh.id, squad_id := some p.2,
                dorsal := pyStr r.dorsal }],
           nextEntryId := p.1.nextEntryId + 1 },
         acc.2 + 1)

/-- `import_inscriptions_from_excel` restricted to its data rows: the
competition is ensured first (created when absent), then each row is
processed in order.  No row can raise, so the final commit always runs. -/
def import_inscriptions_from_excel (st : Store) (name : String)
    (rows : List InscRow) : Store × Nat :=
  let p := ensureCompetition st name
  rows.foldl (inscStep p.2) (p.1, 0)

/-- Number of entries of the store carrying the given
`(competition_id, dorsal)` pair. -/
def countCompDorsal (st : Store) (cid : Nat) (d : String) : Nat :=
  (st.entries.filter
    (fun e => e.competition_id == cid && e.dorsal == some d)).length

/-- A data row of the `Resultados` sheet.  `dorsal`, `round`, `hits`,
`misses` and `score` are raw cells; `detalle` is the optional detail text. -/
structure ResultRow where
  dorsal : Cell
  round : Cell
  hits : Cell
  misses : Cell
  score : Cell
  detalle : Option String
deriving DecidableEq, Repr

/-- Lines 248–250 of `import_results_from_excel`: the dorsal cell is
converted with `str(...)` unless it is `None`, and the entry is fetched by
`SELECT id FROM entries WHERE competition_id=? AND dorsal=?`.  Binding a
`NULL` dorsal never matches (SQL `dorsal = NULL` is not true), so a missing
dorsal behaves like an unknown one. -/
def entryLookup (st : Store) (cid : Nat) (dorsal : Cell) : Option Entry :=
  match pyStr dorsal with
  | Option.none => Option.none
  | some d =>
    st.entries.find? (fun e => e.competition_id == cid && e.dorsal == some d)

/-- `int(c or d)` as an `Except`: an unparsable value is a `ValueError`,
which is fatal for the enclosing import run. -/
def parseIntE (c : Cell) (d : Int) : Except String Int :=
  match parseIntDefault c d with
  | some v => Except.ok v
  | Option.none => Except.error "ValueError: invalid literal for int"

/-- One iteration of the row loop of `import_results_from_excel`
(lines 246–262): an unknown `(competition, dorsal)` is skipped with a
printed warning; otherwise `round` (default 1), `hits` (default 0),
`misses` (default 0) and `score` (default `hits`) are coerced with `int`
— any coercion failure aborts the run — and a new `round_results` row is
inserted with the current UTC timestamp `ts`. -/
def resultStep (cid : Nat) (ts : String) (acc : Store × Nat) (r : ResultRow) :
    Except String (Store × Nat) :=
  match entryLookup acc.1 cid r.dorsal with
  | Option.none => Except.ok acc
  | some e =>
    match parseIntE r.round 1 with
    | Except.error m => Except.error m
    | Except.ok rn =>
      match parseIntE r.hits 0 with
      | Except.error m => Except.error m
      | Except.ok hv =>
        match parseIntE r.misses 0 with
        | Except.error m => Except.error m
        | Except.ok mv =>
          match parseIntE r.score hv with
          | Except.error m => Except.error m
          | Except.ok sv =>
            Except.ok
              ({ acc.1 with
                 roundResults := acc.1.roundResults ++
                   [{ id := acc.1.nextRRId, entry_id := e.id,
                      round_number := rn, hits := hv, misses := mv,
                      score := sv, detail := pyShow r.detalle,
                      timestamp := ts }],
                 nextRRId := acc.1.nextRRId + 1 },
               acc.2 + 1)

/-- `import_results_from_excel` restricted to its data rows: the
competition is resolved first and its absence raises
`RuntimeError("Competición no encontrada: ...")` — results import never
creates a competition.  `ts` is the UTC timestamp the rows are stamped
with. -/
def import_results_from_excel (st : Store) (name : String)
    (rows : List ResultRow) (ts : String) : Except String (Store × Nat) :=
  match st.competitions.find? (fun c => c.nombre == name) with
  | Option.none => Except.error ("Competición no encontrada: " ++ name)
  | some c => rows.foldlM (resultStep c.id ts) (st, 0)

/-- The committed store after a call to `import_results_from_excel`: the
single `conn.commit()` sits after the row loop, so a run aborted by an
exception commits nothing and the store is unchanged. -/
def afterResults (st : Store) (name : String) (rows : List ResultRow)
    (ts : String) : Store :=
  match import_results_from_excel st name rows ts with
  | Except.ok (st1, _) => st1
  | Except.error _ => st

/-- `SELECT SUM(hits) FROM round_results WHERE entry_id = ?`, with the
`NULL`-sum of an empty set already coalesced to 0 as in lines 337–338. -/
def totalHits (st : Store) (eid : Nat) : Int :=
  ((st.roundResults.filter (fun rr => rr.entry_id == eid)).map
    (fun rr => rr.hits)).sum

/-- `SELECT SUM(score) FROM round_results WHERE entry_id = ?`, coalesced
to 0 for an entry with no recorded rounds. -/
def totalScore (st : Store) (eid : Nat) : Int :=
  ((st.roundResults.filter (fun rr => rr.entry_id == eid)).map
    (fun rr => rr.score)).sum

/-- One element of the `standings` list built by `compute_rankings`
(lines 332–339). -/
structure Standing where
  dorsal : Option String
  nombre : Option String
  club : Option String
  categoria : String
  total_hits : Int
  total_score : Int
deriving DecidableEq, Repr

/-- The `entries JOIN shooters` retrieval of lines 325–327: entries of the
competition in rowid order, each paired with its shooter. -/
def joinRows (st : Store) (cid : Nat) : List (Entry × Shooter) :=
  (st.entries.filter (fun e => e.competition_id == cid)).filterMap
    (fun e => (st.shooters.find? (fun s => s.id == e.shooter_id)).map
      (fun s => (e, s)))

/-- The standings dict built for one joined row: the category defaults to
the literal `"Sin categoría"` when the shooter's category is `NULL` or
empty, and the totals are the coalesced sums over the entry's rounds. -/
def mkStanding (st : Store) (e : Entry) (s : Shooter) : Standing :=
  { dorsal := e.dorsal, nombre := s.nombre, club := s.club,
    categoria := pyOrStr s.categoria "Sin categoría",
    total_hits := totalHits st e.id, total_score := totalScore st e.id }

/-- The unsorted `standings` list of `compute_rankings`. -/
def standingsOf (st : Store) (cid : Nat) : List Standing :=
  (joinRows st cid).map (fun p => mkStanding st p.1 p.2)

/-- The comparison underlying
`sorted(standings, key=lambda x: (-x["total_score"], -x["total_hits"]))`:
ascending lexicographic order on the negated key pair, i.e. score
descending with ties broken by hits descending. -/
def leStanding (x y : Standing) : Prop :=
  y.total_score < x.total_score ∨
    (y.total_score = x.total_score ∧ y.total_hits ≤ x.total_hits)

instance : DecidableRel leStanding := fun x y =>
  inferInstanceAs (Decidable (_ ∨ _))

instance : IsTotal Standing leStanding :=
  ⟨by intro a b; unfold leStanding; omega⟩

instance : IsTrans Standing leStanding :=
  ⟨by intro a b c hab hbc; unfold leStanding at *; omega⟩

/-- `standings_sorted` of line 341: Python's `sorted` is a stable sort, so
it is modelled by the stable `List.insertionSort` over `leStanding`. -/
def sortedStandings (st : Store) (cid : Nat) : List Standing :=
  List.insertionSort leStanding (standingsOf st cid)

/-- `compute_rankings(name, by_category=False)`: resolves the competition
(raising when absent) and returns the sorted flat standings. -/
def compute_rankings_flat (st : Store) (name : String) :
    Except String (List Standing) :=
  match st.competitions.find? (fun c => c.nombre == name) with
  | Option.none => Except.error ("Competición no encontrada: " ++ name)
  | some c => Except.ok (sortedStandings st c.id)

end Fedecat

/-- `grouped.setdefault(key, []).append(x)` on an insertion-ordered dict
modelled as an association list: the value is appended to its key's list,
the key being added at the end on first occurrence. -/
def addToGroups {α : Type} (key : α → String) :
    List (String × List α) → α → List (String × List α)
  | [], x => [(key x, [x])]
  | (k, vs) :: rest, x =>
    if k = key x then (k, vs ++ [x]) :: rest
    else (k, vs) :: addToGroups key rest x

/-- The grouping loop `for s in xs: grouped.setdefault(key(s), []).append(s)`. -/
def groupsBy {α : Type} (key : α → String) (l : List α) :
    List (String × List α) :=
  l.foldl (addToGroups key) []

/-- The member list a grouping dict holds under a key (empty when the key
is absent). -/
def groupVals {α : Type} (m : List (String × List α)) (c : String) : List α :=
  ((m.find? (fun p => p.1 == c)).map (fun p => p.2)).getD []

namespace Fedecat

/-- `compute_rankings(name, by_category=True)` (lines 342–347): the sorted
standings are partitioned into an insertion-ordered dict keyed by the
category label. -/
def compute_rankings_grouped (st : Store) (name : String) :
    Except String (List (String × List Standing)) :=
  match st.competitions.find? (fun c => c.nombre == name) with
  | Option.none => Except.error ("Competición no encontrada: " ++ name)
  | some c => Except.ok (groupsBy (fun s => s.categoria) (sortedStandings st c.id))

end Fedecat

namespace Kivy

/-- A row of the `shooters` table of `fede_shooting_kivy_prototype.py`:
`nombre` is `NOT NULL`, `licencia` is `UNIQUE`.  The importer always
supplies a key (synthesising one when the cell is falsy), so the stored
`licencia` is modelled as a plain string. -/
structure Shooter where
  id : Nat
  numero : Option Int
  nombre : Option String
  categoria : Option String
  comunidad : Option String
  licencia : String
deriving DecidableEq, Repr

/-- A row of the `results` table of the kivy prototype: the aggregate
importer stores one synthetic row per spreadsheet row with `serie = 0`
and `hits = score = total` (either of which may be `NULL`). -/
structure KResult where
  id : Nat
  shooter_id : Nat
  serie : Int
  hits : Option Int
  score : Option Int
  timestamp : String
deriving DecidableEq, Repr

/-- The committed database state of the kivy prototype. -/
structure Store where
  shooters : List Shooter
  results : List KResult
  nextShooterId : Nat
  nextResultId : Nat
deriving DecidableEq, Repr

/-- The state the kivy `init_db` produces. -/
def emptyStore : Store :=
  { shooters := [], results := [], nextShooterId := 1, nextResultId := 1 }

/-- A data row of the `Tiradores` sheet of the kivy prototype, keyed by
the header columns the importer indexes (lines 100–104).  The `numero`
column holds numbers, the `licencia` cell is kept raw because the
importer converts it with `str`. -/
structure ShooterRow where
  numero : Option Int
  nombre : Option String
  categoria : Option String
  comunidad : Option String
  licencia : Cell
deriving DecidableEq, Repr

/-- The fallback key of lines 105–107:
`licencia = f"X-{nombre}-{numero}" if numero else f"X-{nombre}"`
(`numero` is Python-falsy when `None` or `0`; a `None` name renders as
the literal text `None`). -/
def fallbackKey (r : ShooterRow) : String :=
  match r.numero with
  | some n =>
    if n = 0 then "X-" ++ pyShow r.nombre
    else "X-" ++ pyShow r.nombre ++ "-" ++ toString n
  | Option.none => "X-" ++ pyShow r.nombre

/-- The natural key of a kivy shooter row (lines 104–107):
`str(cell)` when the cell is present, then the fallback when falsy. -/
def rowKey (r : ShooterRow) : String :=
  match pyStr r.licencia with
  | some s => if s = "" then fallbackKey r else s
  | Option.none => fallbackKey r

/-- The effect of the kivy `UPDATE` of line 112 on one stored row. -/
def applyUpd (i : Nat) (r : ShooterRow) (s : Shooter) : Shooter :=
  if s.id = i then
    { s with numero := r.numero, nombre := r.nombre,
             categoria := r.categoria, comunidad := r.comunidad }
  else s

/-- The `UPDATE shooters SET numero=?, nombre=?, categoria=?, comunidad=?
WHERE id=?` of line 112 (the key itself is not rewritten). -/
def updateShooter (st : Store) (i : Nat) (r : ShooterRow) : Store :=
  { st with shooters := st.shooters.map (applyUpd i r) }

/-- One iteration of the upsert loop of the kivy
`import_shooters_from_excel` (lines 99–118), carrying
`(store, created, updated)`.  Both the plain `INSERT` and the `UPDATE`
raise `IntegrityError` on a `NULL` `nombre` (`NOT NULL` column), which
aborts the run. -/
def importShooterRow (acc : Store × Nat × Nat) (r : ShooterRow) :
    Except String (Store × Nat × Nat) :=
  let lic := rowKey r
  match acc.1.shooters.find? (fun s => s.licencia == lic) with
  | some s =>
    if r.nombre = Option.none then
      Except.error "NOT NULL constraint failed: shooters.nombre"
    else
      Except.ok (updateShooter acc.1 s.id r, acc.2.1, acc.2.2 + 1)
  | Option.none =>
    if r.nombre = Option.none then
      Except.error "NOT NULL constraint failed: shooters.nombre"
    else
      Except.ok
        ({ acc.1 with
           shooters := acc.1.shooters ++
             [{ id := acc.1.nextShooterId, numero := r.numero,
                nombre := r.nombre, categoria := r.categoria,
                comunidad := r.comunidad, licencia := lic }],
           nextShooterId := acc.1.nextShooterId + 1 },
         acc.2.1 + 1, acc.2.2)

/-- The kivy `import_shooters_from_excel` restricted to its data rows;
returns the store with the `(created, updated)` counters. -/
def import_shooters_from_excel (st : Store) (rows : List ShooterRow) :
    Except String (Store × Nat × Nat) :=
  rows.foldlM importShooterRow (st, 0, 0)

/-- Number of stored kivy shooters with the given license key. -/
def countLic (st : Store) (k : String) : Nat :=
  (st.shooters.filter (fun s => s.licencia == k)).length

/-- The `UNIQUE` constraint on `shooters.licencia` as a boolean invariant. -/
def uniqueLicB : List Shooter → Bool
  | [] => true
  | s :: rest =>
    !(rest.any (fun t => t.licencia == s.licencia)) && uniqueLicB rest

/-- `COALESCE(SUM(r.score), 0)` over the results of one shooter
(SQL `SUM` ignores `NULL` scores and is `NULL`, coalesced to 0, when no
row remains). -/
def totalOf (st : Store) (sid : Nat) : Int :=
  ((st.results.filter (fun r => r.shooter_id == sid)).filterMap
    (fun r => r.score)).sum

/-- Score-descending comparison for `ORDER BY total_score DESC` on the
per-shooter rows. -/
def leTotal (a b : Shooter × Int) : Prop := b.2 ≤ a.2

instance : DecidableRel leTotal := fun a b =>
  inferInstanceAs (Decidable (_ ≤ _))

/-- The retrieval of the kivy `compute_rankings` (lines 170–174): one row
per shooter with its coalesced total, ordered by total descending.
SQLite leaves the order of ties unspecified; they are modelled in stored
order via a stable sort, but the rank-assignment theorems below hold for
every row order. -/
def rankedRows (st : Store) : List (Shooter × Int) :=
  List.insertionSort leTotal (st.shooters.map (fun s => (s, totalOf st s.id)))

/-- One element of the `general` list of the kivy `compute_rankings`. -/
structure Gen where
  puesto : Nat
  nombre : Option String
  categoria : Option String
  total : Int
  comunidad : Option String
deriving DecidableEq, Repr

/-- The loop `for pos, r in enumerate(rows, start=1)` of lines 177–178:
each retrieved row becomes a dict carrying its 1-based global position. -/
def generalFrom : Nat → List (Shooter × Int) → List Gen
  | _, [] => []
  | pos, p :: rest =>
    { puesto := pos, nombre := p.1.nombre, categoria := p.1.categoria,
      total := p.2, comunidad := p.1.comunidad } :: generalFrom (pos + 1) rest

/-- The grouping key of line 182: `g["categoria"] or "Sin categoría"`. -/
def catLabel (g : Gen) : String := pyOrStr g.categoria "Sin categoría"

/-- The kivy `compute_rankings` (lines 168–185): the globally ranked
`general` list and the category map built from it — the group members
keep their global `puesto`. -/
def compute_rankings (st : Store) : List Gen × List (String × List Gen) :=
  let general := generalFrom 1 (rankedRows st)
  (general, groupsBy catLabel general)

end Kivy

namespace Fedecat

/-- A shooter row with the natural key `A1`, used to build concrete
stores. -/
def anaRow : ShooterRow :=
  { nombre := some "Ana", club := Option.none, categoria := some "Senior",
    licencia := Option.none, pais := Option.none, dni := some "A1" }

/-- A shooter row whose `dni` cell is whitespace only. -/
def blankRow : ShooterRow :=
  { nombre := some "Juan", club := Option.none, categoria := Option.none,
    licencia := Option.none, pais := Option.none, dni := some " " }

/-- A shooter row with a natural key but an empty `nombre` cell. -/
def namelessRow : ShooterRow :=
  { nombre := Option.none, club := Option.none, categoria := Option.none,
    licencia := Option.none, pais := Option.none, dni := some "B2" }

/-- The store reached from `init_db` by importing `anaRow`. -/
def anaStore : Store := afterShooters emptyStore [anaRow]

/-- An inscription row for Ana with dorsal 1. -/
def anaInsc : InscRow :=
  { squad := Option.none, dorsal := Cell.num 1, shooter_dni := some "A1" }

/-- A reachable store holding one shooter, the competition `C` and one
entry with dorsal `1` (reached by one shooters import and one
inscriptions import). -/
def oneEntryStore : Store := (import_inscriptions_from_excel anaStore "C" [anaInsc]).1

/-- A well-formed results row for dorsal 1. -/
def goodResult : ResultRow :=
  { dorsal := Cell.num 1, round := Cell.num 1, hits := Cell.num 24,
    misses := Cell.num 1, score := Cell.num 24, detalle := some "d" }

/-- A results row for dorsal 1 whose `hits` cell cannot be coerced by
`int`. -/
def badResult : ResultRow :=
  { dorsal := Cell.num 1, round := Cell.num 1, hits := Cell.txt "abc",
    misses := Cell.num 1, score := Cell.num 24, detalle := some "d" }

/-- A concrete store for the ranking example: competition `Copa` with
three entries, dorsals `1`/`2`/`3`, whose single recorded rounds total
95/93/83. -/
def demoStore : Store :=
  { shooters :=
      [{ id := 1, nombre := some "Juan", club := some "Club A",
         categoria := some "Senior", licencia := Option.none,
         pais := Option.none, dni := some "A" },
       { id := 2, nombre := some "María", club := some "Club B",
         categoria := some "Dama", licencia := Option.none,
         pais := Option.none, dni := some "B" },
       { id := 3, nombre := some "Carlos", club := Option.none,
         categoria := Option.none, licencia := Option.none,
         pais := Option.none, dni := some "Q" }],
    competitions := [{ id := 1, nombre := "Copa" }],
    squads := [],
    entries :=
      [{ id := 1, competition_id := 1, shooter_id := 1,
         squad_id := Option.none, dorsal := some "1" },
       { id := 2, competition_id := 1, shooter_id := 2,
         squad_id := Option.none, dorsal := some "2" },
       { id := 3, competition_id := 1, shooter_id := 3,
         squad_id := Option.none, dorsal := some "3" }],
    roundResults :=
      [{ id := 1, entry_id := 1, round_number := 1, hits := 24, misses := 1,
         score := 95, detail := "d", timestamp := "t" },
       { id := 2, entry_id := 2, round_number := 1, hits := 23, misses := 2,
         score := 93, detail := "d", timestamp := "t" },
       { id := 3, entry_id := 3, round_number := 1, hits := 22, misses := 3,
         score := 83, detail := "d", timestamp := "t" }],
    nextShooterId := 4, nextCompId := 2, nextSquadId := 1,
    nextEntryId := 4, nextRRId := 4 }

/-- The sorted flat standings of `demoStore`. -/
def demoSorted : List Standing := sortedStandings demoStore 1

end Fedecat

namespace Kivy

/-- A concrete kivy store: two shooters of different categories with
aggregate totals 95 and 93. -/
def kDemoStore : Store :=
  { shooters :=
      [{ id := 1, numero := some 1, nombre := some "Juan",
         categoria := some "Senior", comunidad := some "Andalucía",
         licencia := "ESP1" },
       { id := 2, numero := some 2, nombre := some "María",
         categoria := some "Dama", comunidad := some "Galicia",
         licencia := "ESP2" }],
    results :=
      [{ id := 1, shooter_id := 1, serie := 0, hits := some 95,
         score := some 95, timestamp := "t" },
       { id := 2, shooter_id := 2, serie := 0, hits := some 93,
         score := some 93, timestamp := "t" }],
    nextShooterId := 3, nextResultId := 3 }

/-- A kivy shooter row with license key `ESP9`. -/
def kRow : ShooterRow :=
  { numero := some 7, nombre := some "Eva", categoria := some "Dama",
    comunidad := some "Aragón", licencia := Cell.txt "ESP9" }

end Kivy

namespace Fedecat

/-- The committed store of a successful shooters import is the pending
store the run produced. -/
theorem afterShooters_eq_of_ok (st : Store) (rows : List ShooterRow)
    (stout : Store) (n : Nat)
    (h : import_shooters_from_excel st rows = Except.ok (stout, n)) :
    afterShooters st rows = stout := by
  unfold afterShooters
  rw [h]

/-- Resolving or creating a squad never touches the other tables. -/
theorem findOrCreateSquad_store (st : Store) (cid : Nat) (n : String) :
    (findOrCreateSquad st cid n).1.competitions = st.competitions ∧
    (findOrCreateSquad st cid n).1.entries = st.entries ∧
    (findOrCreateSquad st cid n).1.nextEntryId = st.nextEntryId ∧
    (findOrCreateSquad st cid n).1.shooters = st.shooters := by
  unfold findOrCreateSquad
  cases st.squads.find? (fun s => s.competition_id == cid && s.nombre == n) with
  | none => exact ⟨rfl, rfl, rfl, rfl⟩
  | some s => exact ⟨rfl, rfl, rfl, rfl⟩

/-- One inscription row never touches the competitions table. -/
theorem inscStep_competitions (cid : Nat) (acc : Store × Nat) (r : InscRow) :
    (inscStep cid acc r).1.competitions = acc.1.competitions := by
  unfold inscStep
  split
  · rfl
  · split
    · rfl
    · split
      · rfl
      · exact (findOrCreateSquad_store acc.1 cid (pyOrStr r.squad "Sin escuadra")).1

/-- The inscription row loop never touches the competitions table. -/
theorem foldl_inscStep_competitions (cid : Nat) :
    ∀ (rows : List InscRow) (acc : Store × Nat),
      ((rows.foldl (inscStep cid) acc).1).competitions = acc.1.competitions := by
  intro rows
  induction rows with
  | nil => intro acc; rfl
  | cons r rest ih =>
    intro acc
    rw [List.foldl_cons, ih (inscStep cid acc r), inscStep_competitions]

end Fedecat

/-- C4: `ImportResults` fails with the not-found error (committing
nothing) when the named competition is absent, whereas
`ImportInscriptions` creates the absent competition and then runs its row
loop against the new competition's id. -/
theorem results_requires_competition_inscriptions_create_it :
    (∀ (st : Fedecat.Store) (name : String) (rows : List Fedecat.ResultRow)
        (ts : String),
      st.competitions.find? (fun c => c.nombre == name) = Option.none →
        Fedecat.import_results_from_excel st name rows ts =
          Except.error ("Competición no encontrada: " ++ name) ∧
        Fedecat.afterResults st name rows ts = st) ∧
    (∀ (st : Fedecat.Store) (name : String) (rows : List Fedecat.InscRow),
      st.competitions.find? (fun c => c.nombre == name) = Option.none →
        Fedecat.import_inscriptions_from_excel st name rows =
          rows.foldl (Fedecat.inscStep st.nextCompId)
            ({ st with
               competitions := st.competitions ++
                 [{ id := st.nextCompId, nombre := name }],
               nextCompId := st.nextCompId + 1 }, 0) ∧
        ((Fedecat.import_inscriptions_from_excel st name rows).1).competitions.find?
            (fun c => c.nombre == name) =
          some { id := st.nextCompId, nombre := name }) := by
  constructor
  · intro st name rows ts h
    constructor
    · unfold Fedecat.import_results_from_excel
      rw [h]
    · unfold Fedecat.afterResults Fedecat.import_results_from_excel
      rw [h]
  · intro st name rows h
    have hens : Fedecat.ensureCompetition st name =
        ({ st with
           competitions := st.competitions ++
             [{ id := st.nextCompId, nombre := name }],
           nextCompId := st.nextCompId + 1 }, st.nextCompId) := by
      unfold Fedecat.ensureCompetition
      rw [h]
    have himp : Fedecat.import_inscriptions_from_excel st name rows =
        rows.foldl (Fedecat.inscStep st.nextCompId)
          ({ st with
             competitions := st.competitions ++
               [{ id := st.nextCompId, nombre := name }],
             nextCompId := st.nextCompId + 1 }, 0) := by
      unfold Fedecat.import_inscriptions_from_excel
      rw [hens]
    refine ⟨himp, ?_⟩
    rw [himp, Fedecat.foldl_inscStep_competitions]
    simp only [List.find?_append, h, Option.none_or]
    simp [List.find?]

/-- C4 witness: at a store with no competitions, a results import fails
with the not-found error and commits nothing, and an inscriptions import
materialises the competition. -/
theorem results_requires_competition_inscriptions_create_it_witness :
    (Fedecat.import_results_from_excel Fedecat.emptyStore "Copa"
        [Fedecat.goodResult] "t0" =
      Except.error ("Competición no encontrada: " ++ "Copa") ∧
     Fedecat.afterResults Fedecat.emptyStore "Copa" [Fedecat.goodResult] "t0" =
      Fedecat.emptyStore) ∧
    ((Fedecat.import_inscriptions_from_excel Fedecat.emptyStore "Copa"
        []).1).competitions.find? (fun c => c.nombre == "Copa") =
      some { id := 1, nombre := "Copa" } :=
  ⟨results_requires_competition_inscriptions_create_it.1 Fedecat.emptyStore
      "Copa" [Fedecat.goodResult] "t0" rfl,
   (results_requires_competition_inscriptions_create_it.2 Fedecat.emptyStore
      "Copa" [] rfl).2⟩

/-- C5: a row referencing an unknown foreign entity — an inscription row
whose shooter key matches no stored shooter, or a results row whose
`(competition, dorsal)` matches no stored entry — leaves the store and the
created count unchanged, and the loop goes on with the remaining rows. -/
theorem unknown_reference_rows_are_skipped :
    (∀ (cid : Nat) (st : Fedecat.Store) (c : Nat) (r : Fedecat.InscRow)
        (d : String) (rest : List Fedecat.InscRow),
      Fedecat.parseShooterDni r.shooter_dni = some d → d ≠ "" →
      st.shooters.find? (fun s => s.dni == some d) = Option.none →
        Fedecat.inscStep cid (st, c) r = (st, c) ∧
        (r :: rest).foldl (Fedecat.inscStep cid) (st, c) =
          rest.foldl (Fedecat.inscStep cid) (st, c)) ∧
    (∀ (cid : Nat) (ts : String) (st : Fedecat.Store) (c : Nat)
        (r : Fedecat.ResultRow) (rest : List Fedecat.ResultRow),
      Fedecat.entryLookup st cid r.dorsal = Option.none →
        Fedecat.resultStep cid ts (st, c) r = Except.ok (st, c) ∧
        (r :: rest).foldlM (Fedecat.resultStep cid ts) (st, c) =
          rest.foldlM (Fedecat.resultStep cid ts) (st, c)) := by
  constructor
  · intro cid st c r d rest hd hne hf
    have hstep : Fedecat.inscStep cid (st, c) r = (st, c) := by
      unfold Fedecat.inscStep
      simp only [hd, if_neg hne, hf]
    exact ⟨hstep, by rw [List.foldl_cons, hstep]⟩
  · intro cid ts st c r rest hl
    have hstep : Fedecat.resultStep cid ts (st, c) r = Except.ok (st, c) := by
      unfold Fedecat.resultStep
      rw [hl]
    refine ⟨hstep, ?_⟩
    rw [List.foldlM_cons, hstep]
    rfl

/-- C5 witness: an inscription row for an unknown shooter key and a
results row for an unknown dorsal are both skipped at a concrete store. -/
theorem unknown_reference_rows_are_skipped_witness :
    (Fedecat.inscStep 1 (Fedecat.emptyStore, 0)
        { squad := Option.none, dorsal := Cell.num 9,
          shooter_dni := some "ZZ" } = (Fedecat.emptyStore, 0)) ∧
    (Fedecat.resultStep 1 "t0" (Fedecat.emptyStore, 0) Fedecat.goodResult =
      Except.ok (Fedecat.emptyStore, 0)) :=
  ⟨(unknown_reference_rows_are_skipped.1 1 Fedecat.emptyStore 0
      { squad := Option.none, dorsal := Cell.num 9, shooter_dni := some "ZZ" }
      "ZZ" [] rfl (by decide) rfl).1,
   (unknown_reference_rows_are_skipped.2 1 "t0" Fedecat.emptyStore 0
      Fedecat.goodResult [] rfl).1⟩

/-- C7: for a results row whose entry is found, the parsed round number
defaults to 1 when the cell is missing, hits and misses default to 0, the
score defaults to the parsed hits, and the inserted `round_results` row
carries exactly the parsed values. -/
theorem results_row_defaults_and_insert :
    ∀ (cid : Nat) (ts : String) (st : Fedecat.Store) (c : Nat)
      (r : Fedecat.ResultRow) (e : Fedecat.Entry) (rn hv mv sv : Int),
      Fedecat.entryLookup st cid r.dorsal = some e →
      parseIntDefault r.round 1 = some rn →
      parseIntDefault r.hits 0 = some hv →
      parseIntDefault r.misses 0 = some mv →
      parseIntDefault r.score hv = some sv →
        Fedecat.resultStep cid ts (st, c) r =
          Except.ok
            ({ st with
               roundResults := st.roundResults ++
                 [{ id := st.nextRRId, entry_id := e.id, round_number := rn,
                    hits := hv, misses := mv, score := sv,
                    detail := pyShow r.detalle, timestamp := ts }],
               nextRRId := st.nextRRId + 1 }, c + 1) ∧
        (r.round = Cell.empty → rn = 1) ∧
        (r.hits = Cell.empty → hv = 0) ∧
        (r.misses = Cell.empty → mv = 0) ∧
        (r.score = Cell.empty → sv = hv) := by
  intro cid ts st c r e rn hv mv sv hl hrn hhv hmv hsv
  refine ⟨?_, ?_, ?_, ?_, ?_⟩
  · unfold Fedecat.resultStep Fedecat.parseIntE
    simp only [hl, hrn, hhv, hmv, hsv]
  · intro h
    rw [h] at hrn
    simp [parseIntDefault, pyOrCell, Cell.truthy, cellToInt] at hrn
    omega
  · intro h
    rw [h] at hhv
    simp [parseIntDefault, pyOrCell, Cell.truthy, cellToInt] at hhv
    omega
  · intro h
    rw [h] at hmv
    simp [parseIntDefault, pyOrCell, Cell.truthy, cellToInt] at hmv
    omega
  · intro h
    rw [h] at hsv
    simp [parseIntDefault, pyOrCell, Cell.truthy, cellToInt] at hsv
    omega

/-- C6 counterexample: at the concrete reachable store `oneEntryStore`,
importing a good row followed by a row whose `hits` cannot be coerced
aborts the run and leaves NO round results committed — while the same
good row alone commits one — so the earlier row of the failed call does
not remain visible. -/
theorem failed_results_import_commits_nothing_cx :
    Fedecat.import_results_from_excel Fedecat.oneEntryStore "C"
        [Fedecat.goodResult, Fedecat.badResult] "t0" =
      Except.error "ValueError: invalid literal for int" ∧
    (Fedecat.afterResults Fedecat.oneEntryStore "C"
        [Fedecat.goodResult, Fedecat.badResult] "t0").roundResults = [] ∧
    (Fedecat.afterResults Fedecat.oneEntryStore "C"
        [Fedecat.goodResult] "t0").roundResults.length = 1 :=
  ⟨rfl, by decide, by decide⟩

/-- C6 (amended): a results import aborted by an unparsable numeric value
commits nothing — the single `conn.commit()` sits after the row loop, so
the rows inserted by earlier iterations of the failed call are discarded
with the connection's pending transaction, and the committed store is the
one the call started from. -/
theorem failed_results_import_commits_nothing :
    ∀ (st : Fedecat.Store) (name : String) (rows : List Fedecat.ResultRow)
      (ts msg : String),
      Fedecat.import_results_from_excel st name rows ts = Except.error msg →
        Fedecat.afterResults st name rows ts = st := by
  intro st name rows ts msg h
  unfold Fedecat.afterResults
  rw [h]

/-- C6 witness: the failed two-row import at `oneEntryStore` leaves the
committed store unchanged. -/
theorem failed_results_import_commits_nothing_witness :
    Fedecat.afterResults Fedecat.oneEntryStore "C"
        [Fedecat.goodResult, Fedecat.badResult] "t0" =
      Fedecat.oneEntryStore :=
  failed_results_import_commits_nothing Fedecat.oneEntryStore "C"
    [Fedecat.goodResult, Fedecat.badResult] "t0"
    "ValueError: invalid literal for int" rfl

/-- C7 witness: a results row with all of round, hits, misses and score
missing inserts round 1 and zeros at a concrete store. -/
theorem results_row_defaults_and_insert_witness :
    Fedecat.resultStep 1 "t0" (Fedecat.oneEntryStore, 0)
      { dorsal := Cell.num 1, round := Cell.empty, hits := Cell.empty,
        misses := Cell.empty, score := Cell.empty, detalle := Option.none } =
    Except.ok
      ({ Fedecat.oneEntryStore with
         roundResults := Fedecat.oneEntryStore.roundResults ++
           [{ id := Fedecat.oneEntryStore.nextRRId, entry_id := 1,
              round_number := 1, hits := 0, misses := 0, score := 0,
              detail := pyShow Option.none, timestamp := "t0" }],
         nextRRId := Fedecat.oneEntryStore.nextRRId + 1 }, 0 + 1) :=
  (results_row_defaults_and_insert 1 "t0" Fedecat.oneEntryStore 0
    { dorsal := Cell.num 1, round := Cell.empty, hits := Cell.empty,
      misses := Cell.empty, score := Cell.empty, detalle := Option.none }
    { id := 1, competition_id := 1, shooter_id := 1, squad_id := some 1,
      dorsal := some "1" } 1 0 0 0 rfl rfl rfl rfl rfl).1

/-- C2 counterexample: the `(competition, dorsal)` pair is NOT unique in
every reachable store state — starting from `init_db` and importing one
shooter, then importing the same inscription row (dorsal `1`) twice into
competition `C`, leaves two entries with the pair `(1, "1")`; both rows
are counted as created and no error is raised. -/
theorem duplicate_dorsal_two_entries_cx :
    Fedecat.countCompDorsal
        (Fedecat.import_inscriptions_from_excel Fedecat.anaStore "C"
          [Fedecat.anaInsc, Fedecat.anaInsc]).1 1 "1" = 2 ∧
    (Fedecat.import_inscriptions_from_excel Fedecat.anaStore "C"
        [Fedecat.anaInsc, Fedecat.anaInsc]).2 = 2 :=
  ⟨by decide, by decide⟩

/-- C2 (amended): the store does not enforce `(competition, dorsal)`
uniqueness — the schema only declares a non-unique index — and an
inscription row whose dorsal duplicates an existing entry of the same
competition is silently inserted as a second entry with the same pair,
counted as created; the existing entries are left untouched (nothing is
overwritten or merged) and no Conflict is raised. -/
theorem duplicate_dorsal_silently_inserted :
    ∀ (cid : Nat) (st : Fedecat.Store) (c : Nat) (r : Fedecat.InscRow)
      (d : String) (sh : Fedecat.Shooter),
      Fedecat.parseShooterDni r.shooter_dni = some d → d ≠ "" →
      st.shooters.find? (fun s => s.dni == some d) = some sh →
      ∃ sid : Nat,
        (Fedecat.inscStep cid (st, c) r).2 = c + 1 ∧
        (Fedecat.inscStep cid (st, c) r).1.entries =
          st.entries ++
            [{ id := st.nextEntryId, competition_id := cid,
               shooter_id := sh.id, squad_id := some sid,
               dorsal := pyStr r.dorsal }] ∧
        (∀ dd : String, pyStr r.dorsal = some dd →
          Fedecat.countCompDorsal (Fedecat.inscStep cid (st, c) r).1 cid dd =
            Fedecat.countCompDorsal st cid dd + 1) := by
  intro cid st c r d sh hd hne hf
  have hsq := Fedecat.findOrCreateSquad_store st cid (pyOrStr r.squad "Sin escuadra")
  have hstep : Fedecat.inscStep cid (st, c) r =
      ({ (Fedecat.findOrCreateSquad st cid (pyOrStr r.squad "Sin escuadra")).1 with
         entries := st.entries ++
           [{ id := st.nextEntryId, competition_id := cid,
              shooter_id := sh.id,
              squad_id := some (Fedecat.findOrCreateSquad st cid
                (pyOrStr r.squad "Sin escuadra")).2,
              dorsal := pyStr r.dorsal }],
         nextEntryId := st.nextEntryId + 1 }, c + 1) := by
    unfold Fedecat.inscStep
    simp only [hd, if_neg hne, hf]
    rw [hsq.2.1, hsq.2.2.1]
  refine ⟨(Fedecat.findOrCreateSquad st cid (pyOrStr r.squad "Sin escuadra")).2,
    ?_, ?_, ?_⟩
  · rw [hstep]
  · rw [hstep]
  · intro dd hdd
    rw [hstep]
    unfold Fedecat.countCompDorsal
    simp only [List.filter_append, List.length_append]
    simp [hdd]

/-- C2 witness: at the concrete store already holding Ana's entry with
dorsal `1`, the duplicate inscription row is inserted as a second entry
and the count of the pair rises from 1 to 2. -/
theorem duplicate_dorsal_silently_inserted_witness :
    ∃ sid : Nat,
      (Fedecat.inscStep 1 (Fedecat.oneEntryStore, 0) Fedecat.anaInsc).2 = 0 + 1 ∧
      (Fedecat.inscStep 1 (Fedecat.oneEntryStore, 0) Fedecat.anaInsc).1.entries =
        Fedecat.oneEntryStore.entries ++
          [{ id := Fedecat.oneEntryStore.nextEntryId, competition_id := 1,
             shooter_id := 1, squad_id := some sid, dorsal := pyStr Fedecat.anaInsc.dorsal }] ∧
      (∀ dd : String, pyStr Fedecat.anaInsc.dorsal = some dd →
        Fedecat.countCompDorsal
            (Fedecat.inscStep 1 (Fedecat.oneEntryStore, 0) Fedecat.anaInsc).1 1 dd =
          Fedecat.countCompDorsal Fedecat.oneEntryStore 1 dd + 1) :=
  duplicate_dorsal_silently_inserted 1 Fedecat.oneEntryStore 0 Fedecat.anaInsc
    "A1" { id := 1, nombre := some "Ana", club := Option.none,
           categoria := some "Senior", licencia := Option.none,
           pais := Option.none, dni := some "A1" }
    rfl (by decide) (by decide)

/-- C10 counterexample: a row whose `dni` cell is whitespace-only is
"keyless" in the claim's sense, but importing it twice yields ONE stored
record, not two — the key stored is the empty string (not `NULL`), so the
second `INSERT OR IGNORE` is dropped by the `UNIQUE` constraint while
still being counted as created. -/
theorem blank_dni_row_is_deduplicated_cx :
    (Fedecat.afterShooters (Fedecat.afterShooters Fedecat.emptyStore
        [Fedecat.blankRow]) [Fedecat.blankRow]).shooters.length = 1 ∧
    Fedecat.countDni (Fedecat.afterShooters (Fedecat.afterShooters
        Fedecat.emptyStore [Fedecat.blankRow]) [Fedecat.blankRow]) "" = 1 ∧
    Fedecat.import_shooters_from_excel
        (Fedecat.afterShooters Fedecat.emptyStore [Fedecat.blankRow])
        [Fedecat.blankRow] =
      Except.ok (Fedecat.afterShooters Fedecat.emptyStore [Fedecat.blankRow], 1) :=
  ⟨by decide, by decide, rfl⟩

/-- C10 (amended): for a row carrying a name, an empty (`None`) `dni`
cell skips the lookup and the row is inserted with a `NULL` key and
counted as created — importing it twice yields two stored records —
whereas a whitespace-only `dni` is normalised to the empty-string key
(not `NULL`): its first import inserts a record with `dni = ""` and a
repeat import inserts nothing (the `INSERT OR IGNORE` is dropped by the
`UNIQUE` constraint) while still being counted as created.  A row whose
`nombre` cell is also empty is dropped by the `NOT NULL` constraint on
`nombre` — nothing is stored at all — yet it too is counted as
created. -/
theorem keyless_rows_null_vs_blank :
    (∀ (st : Fedecat.Store) (r : Fedecat.ShooterRow) (nm : String),
      r.dni = Option.none → r.nombre = some nm →
        Fedecat.import_shooters_from_excel st [r] =
          Except.ok
            ({ st with
               shooters := st.shooters ++
                 [{ id := st.nextShooterId, nombre := r.nombre,
                    club := r.club, categoria := r.categoria,
                    licencia := r.licencia, pais := r.pais,
                    dni := Option.none }],
               nextShooterId := st.nextShooterId + 1 }, 1)) ∧
    (∀ (st : Fedecat.Store) (r : Fedecat.ShooterRow) (nm : String),
      r.dni = Option.none → r.nombre = some nm →
        (Fedecat.afterShooters (Fedecat.afterShooters st [r]) [r]).shooters.length =
          st.shooters.length + 2) ∧
    (∀ (st : Fedecat.Store) (r : Fedecat.ShooterRow) (nm w : String),
      r.dni = some w → w ≠ "" → pyStrip w = "" → r.nombre = some nm →
        (st.shooters.any (fun s => s.dni == some "") = true →
          Fedecat.import_shooters_from_excel st [r] = Except.ok (st, 1)) ∧
        (st.shooters.any (fun s => s.dni == some "") = false →
          Fedecat.import_shooters_from_excel st [r] =
            Except.ok
              ({ st with
                 shooters := st.shooters ++
                   [{ id := st.nextShooterId, nombre := r.nombre,
                      club := r.club, categoria := r.categoria,
                      licencia := r.licencia, pais := r.pais,
                      dni := some "" }],
                 nextShooterId := st.nextShooterId + 1 }, 1))) ∧
    (∀ (st : Fedecat.Store) (r : Fedecat.ShooterRow),
      r.dni = Option.none → r.nombre = Option.none →
        Fedecat.import_shooters_from_excel st [r] = Except.ok (st, 1)) := by
  have hnone : ∀ (st : Fedecat.Store) (r : Fedecat.ShooterRow) (nm : String),
      r.dni = Option.none → r.nombre = some nm →
        Fedecat.import_shooters_from_excel st [r] =
          Except.ok
            ({ st with
               shooters := st.shooters ++
                 [{ id := st.nextShooterId, nombre := r.nombre,
                    club := r.club, categoria := r.categoria,
                    licencia := r.licencia, pais := r.pais,
                    dni := Option.none }],
               nextShooterId := st.nextShooterId + 1 }, 1) := by
    intro st r nm hdni hn
    unfold Fedecat.import_shooters_from_excel
    rw [List.foldlM_cons]
    have hrow : Fedecat.importShooterRow (st, 0) r =
        Except.ok
          ({ st with
             shooters := st.shooters ++
               [{ id := st.nextShooterId, nombre := r.nombre,
                  club := r.club, categoria := r.categoria,
                  licencia := r.licencia, pais := r.pais,
                  dni := Option.none }],
             nextShooterId := st.nextShooterId + 1 }, 0 + 1) := by
      unfold Fedecat.importShooterRow Fedecat.shooterLookupDni
        Fedecat.parseDniCell Fedecat.insertShooterOrIgnore
      rw [hdni, hn]
      simp
    rw [hrow]
    rfl
  refine ⟨hnone, ?_, ?_, ?_⟩
  · intro st r nm hdni hn
    have h1 := hnone st r nm hdni hn
    have ha1 := Fedecat.afterShooters_eq_of_ok st [r] _ _ h1
    have h2 := hnone (Fedecat.afterShooters st [r]) r nm hdni hn
    have ha2 := Fedecat.afterShooters_eq_of_ok (Fedecat.afterShooters st [r])
      [r] _ _ h2
    rw [ha2, ha1]
    simp [List.length_append]
  · intro st r nm w hdni hne hstrip hn
    have hparse : Fedecat.parseDniCell r.dni = some "" := by
      unfold Fedecat.parseDniCell
      simp only [hdni, if_neg hne, hstrip]
      simp
    constructor
    · intro hany
      unfold Fedecat.import_shooters_from_excel
      rw [List.foldlM_cons]
      have hrow : Fedecat.importShooterRow (st, 0) r = Except.ok (st, 0 + 1) := by
        unfold Fedecat.importShooterRow Fedecat.shooterLookupDni
          Fedecat.insertShooterOrIgnore
        simp only [hparse, hn]
        simp [hany]
      rw [hrow]
      rfl
    · intro hany
      unfold Fedecat.import_shooters_from_excel
      rw [List.foldlM_cons]
      have hrow : Fedecat.importShooterRow (st, 0) r =
          Except.ok
            ({ st with
               shooters := st.shooters ++
                 [{ id := st.nextShooterId, nombre := r.nombre,
                    club := r.club, categoria := r.categoria,
                    licencia := r.licencia, pais := r.pais,
                    dni := some "" }],
               nextShooterId := st.nextShooterId + 1 }, 0 + 1) := by
        unfold Fedecat.importShooterRow Fedecat.shooterLookupDni
          Fedecat.insertShooterOrIgnore
        simp only [hparse, hn]
        simp [hany]
      rw [hrow]
      rfl
  · intro st r hdni hn
    unfold Fedecat.import_shooters_from_excel
    rw [List.foldlM_cons]
    have hrow : Fedecat.importShooterRow (st, 0) r = Except.ok (st, 0 + 1) := by
      unfold Fedecat.importShooterRow Fedecat.shooterLookupDni
        Fedecat.parseDniCell Fedecat.insertShooterOrIgnore
      simp only [hdni, hn]
      simp
    rw [hrow]
    rfl

/-- C10 witness: the empty-cell row `namelessRow` with a name, the
whitespace-only `blankRow` re-imported into a store already holding the
empty-string key, and the fully empty row with neither key nor name. -/
theorem keyless_rows_null_vs_blank_witness :
    (Fedecat.afterShooters (Fedecat.afterShooters Fedecat.emptyStore
        [{ Fedecat.blankRow with dni := Option.none }])
        [{ Fedecat.blankRow with dni := Option.none }]).shooters.length =
      Fedecat.emptyStore.shooters.length + 2 ∧
    Fedecat.import_shooters_from_excel
        (Fedecat.afterShooters Fedecat.emptyStore [Fedecat.blankRow])
        [Fedecat.blankRow] =
      Except.ok (Fedecat.afterShooters Fedecat.emptyStore [Fedecat.blankRow], 1) ∧
    Fedecat.import_shooters_from_excel Fedecat.emptyStore
        [{ Fedecat.namelessRow with dni := Option.none }] =
      Except.ok (Fedecat.emptyStore, 1) :=
  ⟨keyless_rows_null_vs_blank.2.1 Fedecat.emptyStore
      { Fedecat.blankRow with dni := Option.none } "Juan" rfl rfl,
   (keyless_rows_null_vs_blank.2.2.1
      (Fedecat.afterShooters Fedecat.emptyStore [Fedecat.blankRow])
      Fedecat.blankRow "Juan" " " rfl (by decide) (by decide) rfl).1 (by decide),
   keyless_rows_null_vs_blank.2.2.2 Fedecat.emptyStore
      { Fedecat.namelessRow with dni := Option.none } rfl rfl⟩

/-- The member list of a prepended group key. -/
theorem groupVals_cons {α : Type} (k : String) (vs : List α)
    (rest : List (String × List α)) (c : String) :
    groupVals ((k, vs) :: rest) c = if k = c then vs else groupVals rest c := by
  unfold groupVals
  by_cases h : k = c
  · subst h
    rw [List.find?_cons_of_pos _ (by simp)]
    simp
  · rw [List.find?_cons_of_neg _ (by simp [h])]
    simp [h]

/-- Appending one element to a grouping dict appends it to exactly its
key's member list. -/
theorem groupVals_addToGroups {α : Type} (key : α → String)
    (m : List (String × List α)) (x : α) (c : String) :
    groupVals (addToGroups key m x) c =
      groupVals m c ++ (if key x = c then [x] else []) := by
  induction m with
  | nil =>
    unfold addToGroups
    rw [groupVals_cons]
    by_cases h : key x = c <;> simp [h, groupVals]
  | cons hd rest ih =>
    obtain ⟨k, vs⟩ := hd
    unfold addToGroups
    by_cases hkx : k = key x
    · rw [if_pos hkx, groupVals_cons, groupVals_cons]
      by_cases hc : k = c
      · rw [if_pos hc, if_pos hc, if_pos (hkx ▸ hc)]
      · rw [if_neg hc, if_neg hc, if_neg (hkx ▸ hc)]
        simp
    · rw [if_neg hkx, groupVals_cons, groupVals_cons]
      by_cases hc : k = c
      · have : key x ≠ c := fun h => hkx (hc.trans h.symm)
        rw [if_pos hc, if_pos hc, if_neg this]
        simp
      · rw [if_neg hc, if_neg hc, ih]

/-- Folding the grouping step over a list appends each element to its
key's member list, in list order. -/
theorem groupVals_foldl {α : Type} (key : α → String) :
    ∀ (l : List α) (m : List (String × List α)) (c : String),
      groupVals (l.foldl (addToGroups key) m) c =
        groupVals m c ++ l.filter (fun x => key x == c) := by
  intro l
  induction l with
  | nil => intro m c; simp
  | cons x rest ih =>
    intro m c
    rw [List.foldl_cons, ih, groupVals_addToGroups, List.filter_cons]
    by_cases h : key x = c
    · simp [h, List.append_assoc]
    · simp [h]

/-- The member list of each key of `groupsBy key l` is exactly the
subsequence of `l` with that key value. -/
theorem groupVals_groupsBy {α : Type} (key : α → String) (l : List α)
    (c : String) :
    groupVals (groupsBy key l) c = l.filter (fun x => key x == c) := by
  unfold groupsBy
  rw [groupVals_foldl]
  simp [groupVals]

/-- C9: the category grouping of `compute_rankings` partitions the full
sorted standings: each key's member list is exactly the order-preserving
subsequence of the flat sorted standings with that category, every
standing lies in exactly the group of its own category, and a shooter
with a `NULL` or empty category is labelled with the literal
`"Sin categoría"`. -/
theorem grouping_partitions_standings :
    (∀ (st : Fedecat.Store) (name : String)
        (g : List (String × List Fedecat.Standing))
        (out : List Fedecat.Standing),
      Fedecat.compute_rankings_grouped st name = Except.ok g →
      Fedecat.compute_rankings_flat st name = Except.ok out →
        (∀ c, groupVals g c = out.filter (fun x => x.categoria == c)) ∧
        (∀ x, x ∈ out ↔ x ∈ groupVals g x.categoria) ∧
        (∀ c x, x ∈ groupVals g c → x.categoria = c)) ∧
    (∀ (st : Fedecat.Store) (e : Fedecat.Entry) (s : Fedecat.Shooter),
      s.categoria = Option.none ∨ s.categoria = some "" →
        (Fedecat.mkStanding st e s).categoria = "Sin categoría") := by
  constructor
  · intro st name g out hg hf
    unfold Fedecat.compute_rankings_grouped at hg
    unfold Fedecat.compute_rankings_flat at hf
    cases hcomp : st.competitions.find? (fun c => c.nombre == name) with
    | none =>
      rw [hcomp] at hg
      exact absurd hg (by simp)
    | some comp =>
      rw [hcomp] at hg hf
      injection hg with hg
      injection hf with hf
      subst hg
      subst hf
      refine ⟨?_, ?_, ?_⟩
      · intro c
        exact groupVals_groupsBy (fun s : Fedecat.Standing => s.categoria) _ c
      · intro x
        rw [groupVals_groupsBy]
        simp [List.mem_filter]
      · intro c x hx
        rw [groupVals_groupsBy] at hx
        simp [List.mem_filter] at hx
        exact hx.2
  · intro st e s h
    unfold Fedecat.mkStanding pyOrStr
    rcases h with h | h <;> simp [h]

/-- C9 witness: at the demo store, the `Senior` group is exactly the
`Senior` subsequence of the flat sorted standings. -/
theorem grouping_partitions_standings_witness :
    groupVals (groupsBy (fun s => s.categoria)
        (Fedecat.sortedStandings Fedecat.demoStore 1)) "Senior" =
      (Fedecat.sortedStandings Fedecat.demoStore 1).filter
        (fun x => x.categoria == "Senior") :=
  (grouping_partitions_standings.1 Fedecat.demoStore "Copa"
    (groupsBy (fun s => s.categoria) (Fedecat.sortedStandings Fedecat.demoStore 1))
    (Fedecat.sortedStandings Fedecat.demoStore 1) rfl rfl).1 "Senior"

/-- The 1-based position numbering of the kivy `general` list. -/
theorem generalFrom_get :
    ∀ (l : List (Kivy.Shooter × Int)) (p i : Nat)
      (h : i < (Kivy.generalFrom p l).length),
      ((Kivy.generalFrom p l).get ⟨i, h⟩).puesto = p + i := by
  intro l
  induction l with
  | nil => intro p i h; simp [Kivy.generalFrom] at h
  | cons a rest ih =>
    intro p i h
    cases i with
    | zero => rfl
    | succ j =>
      have hj : j < (Kivy.generalFrom (p + 1) rest).length := by
        simpa [Kivy.generalFrom] using h
      have : ((Kivy.generalFrom p (a :: rest)).get ⟨j + 1, h⟩).puesto =
          ((Kivy.generalFrom (p + 1) rest).get ⟨j, hj⟩).puesto := rfl
      rw [this, ih (p + 1) j hj]
      omega

/-- C8: every element of the kivy `general` standings carries `puesto`
equal to its 1-based position in the returned sequence, and the
per-category groups are exactly the filters of the global list — their
members keep the global rank, so groups do not re-rank from 1. -/
theorem rank_is_global_position :
    ∀ st : Kivy.Store,
      (∀ (i : Nat) (h : i < (Kivy.compute_rankings st).1.length),
        (((Kivy.compute_rankings st).1).get ⟨i, h⟩).puesto = i + 1) ∧
      (∀ c, groupVals (Kivy.compute_rankings st).2 c =
        ((Kivy.compute_rankings st).1).filter (fun g => Kivy.catLabel g == c)) ∧
      (∀ (c : String) (g : Kivy.Gen),
        g ∈ groupVals (Kivy.compute_rankings st).2 c →
        ∃ (i : Nat) (h : i < (Kivy.compute_rankings st).1.length),
          ((Kivy.compute_rankings st).1).get ⟨i, h⟩ = g ∧ g.puesto = i + 1) := by
  intro st
  have hget : ∀ (i : Nat) (h : i < (Kivy.compute_rankings st).1.length),
      (((Kivy.compute_rankings st).1).get ⟨i, h⟩).puesto = i + 1 := by
    intro i h
    have h2 : i < (Kivy.generalFrom 1 (Kivy.rankedRows st)).length := h
    have h3 := generalFrom_get (Kivy.rankedRows st) 1 i h2
    exact h3.trans (Nat.add_comm 1 i)
  refine ⟨hget, ?_, ?_⟩
  · intro c
    exact groupVals_groupsBy Kivy.catLabel _ c
  · intro c g hg
    have hg2 : g ∈ groupVals
        (groupsBy Kivy.catLabel (Kivy.generalFrom 1 (Kivy.rankedRows st))) c := hg
    rw [groupVals_groupsBy] at hg2
    have hmem : g ∈ (Kivy.compute_rankings st).1 := (List.mem_filter.mp hg2).1
    obtain ⟨⟨i, hi⟩, hgi⟩ := List.mem_iff_get.mp hmem
    exact ⟨i, hi, hgi, by rw [← hgi, hget i hi]⟩

/-- C8 witness: in the concrete kivy store the second-ranked shooter is
the only `Dama`, and her group keeps the global rank 2. -/
theorem rank_is_global_position_witness :
    ((Kivy.compute_rankings Kivy.kDemoStore).1).get ⟨1, by decide⟩ =
      { puesto := 2, nombre := some "María", categoria := some "Dama",
        total := 93, comunidad := some "Galicia" } ∧
    (((Kivy.compute_rankings Kivy.kDemoStore).1).get
        ⟨1, by decide⟩).puesto = 1 + 1 :=
  ⟨by decide, (rank_is_global_position Kivy.kDemoStore).1 1 (by decide)⟩

/-- Filtering the stable sort by one exact key value returns the same
subsequence as filtering the input: key-tied elements keep their
original relative order. -/
theorem insertionSort_filter_key (l : List Fedecat.Standing) (sc th : Int) :
    (List.insertionSort Fedecat.leStanding l).filter
        (fun x => x.total_score == sc && x.total_hits == th) =
      l.filter (fun x => x.total_score == sc && x.total_hits == th) := by
  have hkey : ∀ x ∈ l.filter
      (fun x => x.total_score == sc && x.total_hits == th),
      x.total_score = sc ∧ x.total_hits = th := by
    intro x hx
    have := (List.mem_filter.mp hx).2
    simp at this
    exact this
  have hpw : (l.filter
      (fun x => x.total_score == sc && x.total_hits == th)).Pairwise
        Fedecat.leStanding := by
    apply List.pairwise_of_forall_mem_list
    intro a ha b hb
    obtain ⟨has, hah⟩ := hkey a ha
    obtain ⟨hbs, hbh⟩ := hkey b hb
    unfold Fedecat.leStanding
    omega
  have h1 := List.sublist_insertionSort hpw (List.filter_sublist l)
  have h2 := h1.filter (fun x => x.total_score == sc && x.total_hits == th)
  rw [List.filter_eq_self.mpr (fun a ha => (List.mem_filter.mp ha).2)] at h2
  have h5 : ((List.insertionSort Fedecat.leStanding l).filter
      (fun x => x.total_score == sc && x.total_hits == th)).length =
      (l.filter (fun x => x.total_score == sc && x.total_hits == th)).length :=
    ((List.perm_insertionSort Fedecat.leStanding l).filter _).length_eq
  exact (h2.eq_of_length h5.symm).symm

/-- C3: the flat standings are a permutation of the retrieved standings,
pairwise ordered by total score descending with ties broken by total hits
descending, and the sort is stable — every exact-key subsequence keeps
the retrieval order; an entry with no recorded rounds totals 0/0; and on
the concrete store with round totals 95/93/83 on dorsals 1/2/3 the
returned order is dorsals 1, 2, 3. -/
theorem standings_sorted_stable_totals :
    (∀ (st : Fedecat.Store) (cid : Nat),
      (Fedecat.sortedStandings st cid).Perm (Fedecat.standingsOf st cid) ∧
      List.Pairwise Fedecat.leStanding (Fedecat.sortedStandings st cid) ∧
      (∀ sc th : Int,
        (Fedecat.sortedStandings st cid).filter
            (fun x => x.total_score == sc && x.total_hits == th) =
          (Fedecat.standingsOf st cid).filter
            (fun x => x.total_score == sc && x.total_hits == th))) ∧
    (∀ (st : Fedecat.Store) (eid : Nat),
      st.roundResults.filter (fun rr => rr.entry_id == eid) = [] →
        Fedecat.totalScore st eid = 0 ∧ Fedecat.totalHits st eid = 0) ∧
    Fedecat.compute_rankings_flat Fedecat.demoStore "Copa" =
      Except.ok Fedecat.demoSorted ∧
    Fedecat.demoSorted.map (fun x => x.dorsal) =
      [some "1", some "2", some "3"] ∧
    Fedecat.demoSorted.map (fun x => x.total_score) = [95, 93, 83] := by
  refine ⟨?_, ?_, rfl, by decide, by decide⟩
  · intro st cid
    refine ⟨List.perm_insertionSort Fedecat.leStanding _, ?_, ?_⟩
    · exact List.sorted_insertionSort Fedecat.leStanding _
    · intro sc th
      exact insertionSort_filter_key _ sc th
  · intro st eid h
    unfold Fedecat.totalScore Fedecat.totalHits
    rw [h]
    simp

/-- C3 witness: an entry id with no recorded rounds in the demo store
totals zero score and zero hits. -/
theorem standings_sorted_stable_totals_witness :
    Fedecat.totalScore Fedecat.demoStore 99 = 0 ∧
    Fedecat.totalHits Fedecat.demoStore 99 = 0 :=
  standings_sorted_stable_totals.2.1 Fedecat.demoStore 99 (by decide)

namespace Fedecat

/-- The row update never changes a stored shooter's key. -/
theorem applyUpd_dni (i : Nat) (r : ShooterRow) (s : Shooter) :
    (applyUpd i r s).dni = s.dni := by
  unfold applyUpd
  split <;> rfl

/-- The row update never changes a stored shooter's id. -/
theorem applyUpd_id (i : Nat) (r : ShooterRow) (s : Shooter) :
    (applyUpd i r s).id = s.id := by
  unfold applyUpd
  split <;> rfl

/-- The row update rewrites the matching row's mutable fields from the
spreadsheet row. -/
theorem applyUpd_fields (i : Nat) (r : ShooterRow) (s : Shooter)
    (h : s.id = i) :
    (applyUpd i r s).nombre = r.nombre ∧ (applyUpd i r s).club = r.club ∧
    (applyUpd i r s).categoria = r.categoria ∧
    (applyUpd i r s).licencia = r.licencia ∧
    (applyUpd i r s).pais = r.pais := by
  unfold applyUpd
  rw [if_pos h]
  exact ⟨rfl, rfl, rfl, rfl, rfl⟩

/-- The key predicate is invariant under the row update. -/
theorem dniPred_comp_applyUpd (i : Nat) (r : ShooterRow) (d : String) :
    ((fun s : Shooter => s.dni == some d) ∘ applyUpd i r) =
      (fun s : Shooter => s.dni == some d) :=
  funext (fun s => by simp [Function.comp, applyUpd_dni])

/-- Looking a key up after an `UPDATE` finds the updated image of the row
the key found before. -/
theorem find?_dni_updateShooter (st : Store) (i : Nat) (r : ShooterRow)
    (d : String) :
    (updateShooter st i r).shooters.find? (fun s => s.dni == some d) =
      (st.shooters.find? (fun s => s.dni == some d)).map (applyUpd i r) := by
  unfold updateShooter
  rw [List.find?_map, dniPred_comp_applyUpd]

/-- An `UPDATE` never changes how many rows carry a given key. -/
theorem countDni_updateShooter (st : Store) (i : Nat) (r : ShooterRow)
    (d : String) :
    countDni (updateShooter st i r) d = countDni st d := by
  unfold countDni updateShooter
  rw [List.filter_map, dniPred_comp_applyUpd, List.length_map]

/-- Under the `UNIQUE` invariant, a key that is found is carried by
exactly one stored row. -/
theorem countDni_one_of_find? :
    ∀ (l : List Shooter) (d : String) (s0 : Shooter),
      uniqueDniB l = true →
      l.find? (fun s => s.dni == some d) = some s0 →
      (l.filter (fun s => s.dni == some d)).length = 1 := by
  intro l
  induction l with
  | nil => intro d s0 _ hf; simp at hf
  | cons a rest ih =>
    intro d s0 hu hf
    unfold uniqueDniB at hu
    rw [Bool.and_eq_true] at hu
    obtain ⟨hu1, hu2⟩ := hu
    by_cases hp : (a.dni == some d) = true
    · have had : a.dni = some d := by simpa using hp
      have hany : rest.any (fun t => t.dni == some d) = false := by
        rw [had] at hu1
        simpa using hu1
      have hnil : rest.filter (fun s => s.dni == some d) = [] := by
        rw [List.filter_eq_nil_iff]
        intro x hx hpx
        have := List.any_eq_false.mp hany x hx
        exact this hpx
      rw [List.filter_cons, if_pos hp, List.length_cons, hnil]
      rfl
    · have hp' : (a.dni == some d) = false := by simpa using hp
      rw [List.filter_cons, if_neg (by simp [hp'])]
      have hf2 : rest.find? (fun s => s.dni == some d) = some s0 := by
        rw [List.find?_cons] at hf
        simpa [hp'] using hf
      exact ih d s0 hu2 hf2

/-- A key that is not found is carried by no stored row. -/
theorem countDni_zero_of_find?_none (l : List Shooter) (d : String)
    (hf : l.find? (fun s => s.dni == some d) = Option.none) :
    (l.filter (fun s => s.dni == some d)).length = 0 := by
  rw [List.filter_eq_nil_iff.mpr (by simpa using List.find?_eq_none.mp hf)]
  rfl

/-- A one-row shooters import whose key finds an existing row performs the
in-place `UPDATE` and counts no creation. -/
theorem import_single_update (st : Store) (r : ShooterRow) (d nm : String)
    (s1 : Shooter) (hd : parseDniCell r.dni = some d) (hne : d ≠ "")
    (hn : r.nombre = some nm)
    (hf : st.shooters.find? (fun s => s.dni == some d) = some s1) :
    import_shooters_from_excel st [r] =
      Except.ok (updateShooter st s1.id r, 0) := by
  unfold import_shooters_from_excel
  rw [List.foldlM_cons]
  have hrow : importShooterRow (st, 0) r =
      Except.ok (updateShooter st s1.id r, 0) := by
    unfold importShooterRow shooterLookupDni
    simp only [hd, if_neg hne, hf, hn]
    simp
  rw [hrow]
  rfl

/-- A one-row shooters import whose key finds nothing inserts a fresh row
with that key and counts one creation. -/
theorem import_single_insert (st : Store) (r : ShooterRow) (d nm : String)
    (hd : parseDniCell r.dni = some d) (hne : d ≠ "")
    (hn : r.nombre = some nm)
    (hf : st.shooters.find? (fun s => s.dni == some d) = Option.none) :
    import_shooters_from_excel st [r] =
      Except.ok
        ({ st with
           shooters := st.shooters ++
             [{ id := st.nextShooterId, nombre := r.nombre, club := r.club,
                categoria := r.categoria, licencia := r.licencia,
                pais := r.pais, dni := some d }],
           nextShooterId := st.nextShooterId + 1 }, 1) := by
  unfold import_shooters_from_excel
  rw [List.foldlM_cons]
  have hany : st.shooters.any (fun s => s.dni == some d) = false := by
    rw [List.any_eq_false]
    simpa using List.find?_eq_none.mp hf
  have hrow : importShooterRow (st, 0) r =
      Except.ok
        ({ st with
           shooters := st.shooters ++
             [{ id := st.nextShooterId, nombre := r.nombre, club := r.club,
                categoria := r.categoria, licencia := r.licencia,
                pais := r.pais, dni := some d }],
           nextShooterId := st.nextShooterId + 1 }, 0 + 1) := by
    unfold importShooterRow shooterLookupDni insertShooterOrIgnore
    simp only [hd, if_neg hne, hf, hn, hany]
    simp
  rw [hrow]
  rfl

/-- Re-importing a row whose key is already stored (found as `s1`)
updates `s1` in place: the run reports zero creations, the key count is
unchanged, and the stored row with the key now carries the row's mutable
fields. -/
theorem import_second_from_found (st1 : Store) (r : ShooterRow)
    (d nm : String) (s1 : Shooter) (hd : parseDniCell r.dni = some d)
    (hne : d ≠ "") (hn : r.nombre = some nm)
    (hf : st1.shooters.find? (fun s => s.dni == some d) = some s1) :
    import_shooters_from_excel st1 [r] =
      Except.ok (updateShooter st1 s1.id r, 0) ∧
    countDni (updateShooter st1 s1.id r) d = countDni st1 d ∧
    ∃ s ∈ (updateShooter st1 s1.id r).shooters,
      s.dni = some d ∧ s.nombre = r.nombre ∧ s.club = r.club ∧
      s.categoria = r.categoria ∧ s.licencia = r.licencia ∧
      s.pais = r.pais := by
  refine ⟨import_single_update st1 r d nm s1 hd hne hn hf,
    countDni_updateShooter st1 s1.id r d, ?_⟩
  have hmem1 : s1 ∈ st1.shooters := List.mem_of_find?_eq_some hf
  have hdni1 : s1.dni = some d := by
    have := List.find?_some hf
    simpa using this
  refine ⟨applyUpd s1.id r s1, ?_, ?_, ?_⟩
  · exact List.mem_map_of_mem (applyUpd s1.id r) hmem1
  · rw [applyUpd_dni]
    exact hdni1
  · exact And.intro (applyUpd_fields s1.id r s1 rfl).1
      ⟨(applyUpd_fields s1.id r s1 rfl).2.1,
       (applyUpd_fields s1.id r s1 rfl).2.2.1,
       (applyUpd_fields s1.id r s1 rfl).2.2.2.1,
       (applyUpd_fields s1.id r s1 rfl).2.2.2.2⟩

end Fedecat

namespace Kivy

/-- The kivy row update never changes a stored shooter's license key. -/
theorem applyUpd_lic (i : Nat) (r : ShooterRow) (s : Shooter) :
    (applyUpd i r s).licencia = s.licencia := by
  unfold applyUpd
  split <;> rfl

/-- The kivy row update rewrites the matching row's mutable fields. -/
theorem kivyApplyUpd_fields (i : Nat) (r : ShooterRow) (s : Shooter)
    (h : s.id = i) :
    (applyUpd i r s).nombre = r.nombre ∧ (applyUpd i r s).numero = r.numero ∧
    (applyUpd i r s).categoria = r.categoria ∧
    (applyUpd i r s).comunidad = r.comunidad := by
  unfold applyUpd
  rw [if_pos h]
  exact ⟨rfl, rfl, rfl, rfl⟩

/-- The key predicate is invariant under the kivy row update. -/
theorem licPred_comp_applyUpd (i : Nat) (r : ShooterRow) (k : String) :
    ((fun s : Shooter => s.licencia == k) ∘ applyUpd i r) =
      (fun s : Shooter => s.licencia == k) :=
  funext (fun s => by simp [Function.comp, applyUpd_lic])

/-- Looking a key up after the kivy `UPDATE` finds the updated image. -/
theorem find?_lic_updateShooter (st : Store) (i : Nat) (r : ShooterRow)
    (k : String) :
    (updateShooter st i r).shooters.find? (fun s => s.licencia == k) =
      (st.shooters.find? (fun s => s.licencia == k)).map (applyUpd i r) := by
  unfold updateShooter
  rw [List.find?_map, licPred_comp_applyUpd]

/-- The kivy `UPDATE` never changes how many rows carry a given key. -/
theorem countLic_updateShooter (st : Store) (i : Nat) (r : ShooterRow)
    (k : String) :
    countLic (updateShooter st i r) k = countLic st k := by
  unfold countLic updateShooter
  rw [List.filter_map, licPred_comp_applyUpd, List.length_map]

/-- Under the `UNIQUE` invariant, a license key that is found is carried
by exactly one stored row. -/
theorem countLic_one_of_find? :
    ∀ (l : List Shooter) (k : String) (s0 : Shooter),
      uniqueLicB l = true →
      l.find? (fun s => s.licencia == k) = some s0 →
      (l.filter (fun s => s.licencia == k)).length = 1 := by
  intro l
  induction l with
  | nil => intro k s0 _ hf; simp at hf
  | cons a rest ih =>
    intro k s0 hu hf
    unfold uniqueLicB at hu
    rw [Bool.and_eq_true] at hu
    obtain ⟨hu1, hu2⟩ := hu
    by_cases hp : (a.licencia == k) = true
    · have hak : a.licencia = k := by simpa using hp
      have hany : rest.any (fun t => t.licencia == a.licencia) = false := by
        simpa using hu1
      have hnil : rest.filter (fun s => s.licencia == k) = [] := by
        rw [List.filter_eq_nil_iff]
        intro x hx hpx
        have h1 := List.any_eq_false.mp hany x hx
        rw [hak] at h1
        exact h1 hpx
      rw [List.filter_cons, if_pos hp, List.length_cons, hnil]
      rfl
    · have hp' : (a.licencia == k) = false := by simpa using hp
      rw [List.filter_cons, if_neg (by simp [hp'])]
      have hf2 : rest.find? (fun s => s.licencia == k) = some s0 := by
        rw [List.find?_cons] at hf
        simpa [hp'] using hf
      exact ih k s0 hu2 hf2

/-- A license key that is not found is carried by no stored row. -/
theorem countLic_zero_of_find?_none (l : List Shooter) (k : String)
    (hf : l.find? (fun s => s.licencia == k) = Option.none) :
    (l.filter (fun s => s.licencia == k)).length = 0 := by
  rw [List.filter_eq_nil_iff.mpr (by simpa using List.find?_eq_none.mp hf)]
  rfl

/-- A present, non-empty license cell is itself the row's key (no
fallback synthesis). -/
theorem rowKey_of_present (r : ShooterRow) (k : String)
    (h : pyStr r.licencia = some k) (hne : k ≠ "") : rowKey r = k := by
  unfold rowKey
  simp only [h, if_neg hne]

/-- A one-row kivy import whose key finds an existing row performs the
in-place `UPDATE` and counts `(0 created, 1 updated)`. -/
theorem kivy_import_single_update (st : Store) (r : ShooterRow)
    (k nm : String) (s1 : Shooter) (hk : rowKey r = k)
    (hn : r.nombre = some nm)
    (hf : st.shooters.find? (fun s => s.licencia == k) = some s1) :
    import_shooters_from_excel st [r] =
      Except.ok (updateShooter st s1.id r, 0, 1) := by
  unfold import_shooters_from_excel
  rw [List.foldlM_cons]
  have hrow : importShooterRow (st, 0, 0) r =
      Except.ok (updateShooter st s1.id r, 0, 0 + 1) := by
    unfold importShooterRow
    simp only [hk, hf, hn]
    simp
  rw [hrow]
  rfl

/-- A one-row kivy import whose key finds nothing inserts a fresh row and
counts `(1 created, 0 updated)`. -/
theorem kivy_import_single_insert (st : Store) (r : ShooterRow)
    (k nm : String) (hk : rowKey r = k) (hn : r.nombre = some nm)
    (hf : st.shooters.find? (fun s => s.licencia == k) = Option.none) :
    import_shooters_from_excel st [r] =
      Except.ok
        ({ st with
           shooters := st.shooters ++
             [{ id := st.nextShooterId, numero := r.numero,
                nombre := r.nombre, categoria := r.categoria,
                comunidad := r.comunidad, licencia := k }],
           nextShooterId := st.nextShooterId + 1 }, 1, 0) := by
  unfold import_shooters_from_excel
  rw [List.foldlM_cons]
  have hrow : importShooterRow (st, 0, 0) r =
      Except.ok
        ({ st with
           shooters := st.shooters ++
             [{ id := st.nextShooterId, numero := r.numero,
                nombre := r.nombre, categoria := r.categoria,
                comunidad := r.comunidad, licencia := k }],
           nextShooterId := st.nextShooterId + 1 }, 0 + 1, 0) := by
    unfold importShooterRow
    simp only [hk, hf, hn]
    simp
  rw [hrow]
  rfl

/-- Re-importing a kivy row whose key is already stored updates it in
place, reports `(0 created, 1 updated)`, keeps the key count, and the
stored row with the key carries the row's mutable fields. -/
theorem kivy_import_second_from_found (st1 : Store) (r : ShooterRow)
    (k nm : String) (s1 : Shooter) (hk : rowKey r = k)
    (hn : r.nombre = some nm)
    (hf : st1.shooters.find? (fun s => s.licencia == k) = some s1) :
    import_shooters_from_excel st1 [r] =
      Except.ok (updateShooter st1 s1.id r, 0, 1) ∧
    countLic (updateShooter st1 s1.id r) k = countLic st1 k ∧
    ∃ s ∈ (updateShooter st1 s1.id r).shooters,
      s.licencia = k ∧ s.nombre = r.nombre ∧ s.numero = r.numero ∧
      s.categoria = r.categoria ∧ s.comunidad = r.comunidad := by
  refine ⟨kivy_import_single_update st1 r k nm s1 hk hn hf,
    countLic_updateShooter st1 s1.id r k, ?_⟩
  have hmem1 : s1 ∈ st1.shooters := List.mem_of_find?_eq_some hf
  have hlic1 : s1.licencia = k := by
    have := List.find?_some hf
    simpa using this
  refine ⟨applyUpd s1.id r s1,
    List.mem_map_of_mem (applyUpd s1.id r) hmem1, ?_, ?_⟩
  · rw [applyUpd_lic]
    exact hlic1
  · obtain ⟨h1, h2, h3, h4⟩ := kivyApplyUpd_fields s1.id r s1 rfl
    exact ⟨h1, h2, h3, h4⟩

end Kivy

/-- C1 counterexample: a shooter row with the non-blank key `B2` but an
empty `nombre` cell, imported twice into the fresh store, leaves ZERO
stored shooters with that key — the `INSERT OR IGNORE` drops the row on
the `NOT NULL` constraint — and both runs count it as created (so the
second import is counted as a creation, not an update). -/
theorem same_key_row_reimport_cx :
    Fedecat.import_shooters_from_excel Fedecat.emptyStore
        [Fedecat.namelessRow] = Except.ok (Fedecat.emptyStore, 1) ∧
    Fedecat.import_shooters_from_excel
        (Fedecat.afterShooters Fedecat.emptyStore [Fedecat.namelessRow])
        [Fedecat.namelessRow] =
      Except.ok (Fedecat.afterShooters Fedecat.emptyStore
        [Fedecat.namelessRow], 1) ∧
    Fedecat.countDni
        (Fedecat.afterShooters (Fedecat.afterShooters Fedecat.emptyStore
          [Fedecat.namelessRow]) [Fedecat.namelessRow]) "B2" = 0 :=
  ⟨rfl, rfl, by decide⟩

/-- C1 (amended): for every shooter row carrying a non-blank natural key
AND a non-empty name, importing the row twice into a store satisfying the
key-uniqueness invariant leaves exactly one stored shooter with that key;
the second import performs the in-place `UPDATE` of the mutable fields,
reports zero creations — and in the aggregate-total variant is counted as
an update (`updated = 1`). -/
theorem same_key_row_reimport_updates_in_place :
    (∀ (st : Fedecat.Store) (r : Fedecat.ShooterRow) (d nm : String),
      Fedecat.uniqueDniB st.shooters = true →
      Fedecat.parseDniCell r.dni = some d → d ≠ "" → r.nombre = some nm →
      ∃ (st1 : Fedecat.Store) (c1 : Nat) (st2 : Fedecat.Store),
        Fedecat.import_shooters_from_excel st [r] = Except.ok (st1, c1) ∧
        Fedecat.import_shooters_from_excel st1 [r] = Except.ok (st2, 0) ∧
        Fedecat.countDni st2 d = 1 ∧
        ∃ s ∈ st2.shooters, s.dni = some d ∧ s.nombre = r.nombre ∧
          s.club = r.club ∧ s.categoria = r.categoria ∧
          s.licencia = r.licencia ∧ s.pais = r.pais) ∧
    (∀ (st : Kivy.Store) (r : Kivy.ShooterRow) (k nm : String),
      Kivy.uniqueLicB st.shooters = true →
      pyStr r.licencia = some k → k ≠ "" → r.nombre = some nm →
      ∃ (st1 : Kivy.Store) (c1 u1 : Nat) (st2 : Kivy.Store),
        Kivy.import_shooters_from_excel st [r] = Except.ok (st1, c1, u1) ∧
        Kivy.import_shooters_from_excel st1 [r] = Except.ok (st2, 0, 1) ∧
        Kivy.countLic st2 k = 1 ∧
        ∃ s ∈ st2.shooters, s.licencia = k ∧ s.nombre = r.nombre ∧
          s.numero = r.numero ∧ s.categoria = r.categoria ∧
          s.comunidad = r.comunidad) := by
  constructor
  · intro st r d nm hu hd hne hn
    cases hfind : st.shooters.find? (fun s => s.dni == some d) with
    | some s1 =>
      have h1 := Fedecat.import_single_update st r d nm s1 hd hne hn hfind
      have hf1 : (Fedecat.updateShooter st s1.id r).shooters.find?
          (fun s => s.dni == some d) =
          some (Fedecat.applyUpd s1.id r s1) := by
        rw [Fedecat.find?_dni_updateShooter, hfind]
        rfl
      have hsec := Fedecat.import_second_from_found
        (Fedecat.updateShooter st s1.id r) r d nm
        (Fedecat.applyUpd s1.id r s1) hd hne hn hf1
      refine ⟨_, 0, _, h1, hsec.1, ?_, hsec.2.2⟩
      rw [hsec.2.1, Fedecat.countDni_updateShooter]
      exact Fedecat.countDni_one_of_find? st.shooters d s1 hu hfind
    | none =>
      have h1 := Fedecat.import_single_insert st r d nm hd hne hn hfind
      have hf1 : ({ st with
          shooters := st.shooters ++
            [{ id := st.nextShooterId, nombre := r.nombre, club := r.club,
               categoria := r.categoria, licencia := r.licencia,
               pais := r.pais, dni := some d }],
          nextShooterId := st.nextShooterId + 1 } : Fedecat.Store).shooters.find?
            (fun s => s.dni == some d) =
          some { id := st.nextShooterId, nombre := r.nombre, club := r.club,
                 categoria := r.categoria, licencia := r.licencia,
                 pais := r.pais, dni := some d } := by
        show (st.shooters ++ _).find? (fun s => s.dni == some d) = _
        rw [List.find?_append, hfind]
        simp [List.find?]
      have hsec := Fedecat.import_second_from_found _ r d nm _ hd hne hn hf1
      have hc1 : Fedecat.countDni
          ({ st with
             shooters := st.shooters ++
               [{ id := st.nextShooterId, nombre := r.nombre,
                  club := r.club, categoria := r.categoria,
                  licencia := r.licencia, pais := r.pais, dni := some d }],
             nextShooterId := st.nextShooterId + 1 } : Fedecat.Store) d = 1 := by
        show (List.filter _ (st.shooters ++ _)).length = 1
        rw [List.filter_append, List.length_append,
          Fedecat.countDni_zero_of_find?_none st.shooters d hfind]
        simp [List.filter]
      refine ⟨_, 1, _, h1, hsec.1, ?_, hsec.2.2⟩
      rw [hsec.2.1, hc1]
  · intro st r k nm hu hk hne hn
    have hkey := Kivy.rowKey_of_present r k hk hne
    cases hfind : st.shooters.find? (fun s => s.licencia == k) with
    | some s1 =>
      have h1 := Kivy.kivy_import_single_update st r k nm s1 hkey hn hfind
      have hf1 : (Kivy.updateShooter st s1.id r).shooters.find?
          (fun s => s.licencia == k) = some (Kivy.applyUpd s1.id r s1) := by
        rw [Kivy.find?_lic_updateShooter, hfind]
        rfl
      have hsec := Kivy.kivy_import_second_from_found
        (Kivy.updateShooter st s1.id r) r k nm
        (Kivy.applyUpd s1.id r s1) hkey hn hf1
      refine ⟨_, 0, 1, _, h1, hsec.1, ?_, hsec.2.2⟩
      rw [hsec.2.1, Kivy.countLic_updateShooter]
      exact Kivy.countLic_one_of_find? st.shooters k s1 hu hfind
    | none =>
      have h1 := Kivy.kivy_import_single_insert st r k nm hkey hn hfind
      have hf1 : ({ st with
          shooters := st.shooters ++
            [{ id := st.nextShooterId, numero := r.numero,
               nombre := r.nombre, categoria := r.categoria,
               comunidad := r.comunidad, licencia := k }],
          nextShooterId := st.nextShooterId + 1 } : Kivy.Store).shooters.find?
            (fun s => s.licencia == k) =
          some { id := st.nextShooterId, numero := r.numero,
                 nombre := r.nombre, categoria := r.categoria,
                 comunidad := r.comunidad, licencia := k } := by
        show (st.shooters ++ _).find? (fun s => s.licencia == k) = _
        rw [List.find?_append, hfind]
        simp [List.find?]
      have hsec := Kivy.kivy_import_second_from_found _ r k nm _ hkey hn hf1
      have hc1 : Kivy.countLic
          ({ st with
             shooters := st.shooters ++
               [{ id := st.nextShooterId, numero := r.numero,
                  nombre := r.nombre, categoria := r.categoria,
                  comunidad := r.comunidad, licencia := k }],
             nextShooterId := st.nextShooterId + 1 } : Kivy.Store) k = 1 := by
        show (List.filter _ (st.shooters ++ _)).length = 1
        rw [List.filter_append, List.length_append,
          Kivy.countLic_zero_of_find?_none st.shooters k hfind]
        simp [List.filter]
      refine ⟨_, 1, 0, _, h1, hsec.1, ?_, hsec.2.2⟩
      rw [hsec.2.1, hc1]

/-- C1 witness: Ana's row (key `A1`, named) imported twice into the fresh
per-round store, and Eva's row (license `ESP9`, named) imported twice into
the concrete kivy store. -/
theorem same_key_row_reimport_updates_in_place_witness :
    (∃ (st1 : Fedecat.Store) (c1 : Nat) (st2 : Fedecat.Store),
      Fedecat.import_shooters_from_excel Fedecat.emptyStore [Fedecat.anaRow] =
        Except.ok (st1, c1) ∧
      Fedecat.import_shooters_from_excel st1 [Fedecat.anaRow] =
        Except.ok (st2, 0) ∧
      Fedecat.countDni st2 "A1" = 1 ∧
      ∃ s ∈ st2.shooters, s.dni = some "A1" ∧
        s.nombre = Fedecat.anaRow.nombre ∧ s.club = Fedecat.anaRow.club ∧
        s.categoria = Fedecat.anaRow.categoria ∧
        s.licencia = Fedecat.anaRow.licencia ∧
        s.pais = Fedecat.anaRow.pais) ∧
    (∃ (st1 : Kivy.Store) (c1 u1 : Nat) (st2 : Kivy.Store),
      Kivy.import_shooters_from_excel Kivy.kDemoStore [Kivy.kRow] =
        Except.ok (st1, c1, u1) ∧
      Kivy.import_shooters_from_excel st1 [Kivy.kRow] =
        Except.ok (st2, 0, 1) ∧
      Kivy.countLic st2 "ESP9" = 1 ∧
      ∃ s ∈ st2.shooters, s.licencia = "ESP9" ∧
        s.nombre = Kivy.kRow.nombre ∧ s.numero = Kivy.kRow.numero ∧
        s.categoria = Kivy.kRow.categoria ∧
        s.comunidad = Kivy.kRow.comunidad) :=
  ⟨same_key_row_reimport_updates_in_place.1 Fedecat.emptyStore Fedecat.anaRow
      "A1" "Ana" (by decide) (by decide) (by decide) rfl,
   same_key_row_reimport_updates_in_place.2 Kivy.kDemoStore Kivy.kRow
      "ESP9" "Eva" (by decide) rfl (by decide) rfl⟩
